import Mathlib

/-!
Verification model of `dumptool.py`, a bulk metadata downloader.

Python strings are modelled as `List Char`; Python's `json` values as the
inductive `Json`; the filesystem as a list of entries (bucket directory,
file name, file data); the three append-only logs as lists of lines.
The thread pool of `download_models_threaded` is modelled as a sequential
fold over the candidate ids (each task touches only its own id's file and
performs lock-protected log appends, so any interleaving is equivalent to
a linearization for the properties stated here); an exception raised
inside a worker is captured by its future and silently discarded, which
the fold models by keeping the pre-task state (the only raise point in
`download_model` precedes every state mutation).
-/

/-- Digit value of a decimal digit character, as Python's `int` sees it. -/
def digitVal (c : Char) : Nat :=
  if c = '0' then 0 else if c = '1' then 1 else if c = '2' then 2
  else if c = '3' then 3 else if c = '4' then 4 else if c = '5' then 5
  else if c = '6' then 6 else if c = '7' then 7 else if c = '8' then 8
  else if c = '9' then 9 else 10

/-- The decimal digit character for a digit value < 10. -/
def digitChar (d : Nat) : Char :=
  if d = 0 then '0' else if d = 1 then '1' else if d = 2 then '2'
  else if d = 3 then '3' else if d = 4 then '4' else if d = 5 then '5'
  else if d = 6 then '6' else if d = 7 then '7' else if d = 8 then '8'
  else if d = 9 then '9' else '*'

/-- `c` is one of the ten decimal digit characters (`str.isdigit` per char). -/
def isDigitChar (c : Char) : Bool :=
  digitVal c < 10

/-- Little-endian decimal digits of `n`, computed with explicit fuel
(`fuel ≥ n` suffices) so that it evaluates by kernel reduction. -/
def natDigitsAux : Nat → Nat → List Nat
  | 0, _ => []
  | _ + 1, 0 => []
  | fuel + 1, n + 1 => (n + 1) % 10 :: natDigitsAux fuel ((n + 1) / 10)

/-- Little-endian decimal digits of `n`. -/
def natDigitsLE (n : Nat) : List Nat := natDigitsAux n n

theorem natDigitsAux_eq_digits :
    ∀ (fuel n : Nat), n ≤ fuel → natDigitsAux fuel n = Nat.digits 10 n := by
  intro fuel
  induction fuel with
  | zero =>
    intro n hn
    interval_cases n
    simp [natDigitsAux]
  | succ f ih =>
    intro n hn
    match n with
    | 0 => simp [natDigitsAux]
    | m + 1 =>
      have hdiv : (m + 1) / 10 ≤ f := by
        have h1 : (m + 1) / 10 < m + 1 := Nat.div_lt_self (Nat.succ_pos m) (by norm_num)
        omega
      rw [natDigitsAux, ih _ hdiv]
      rw [Nat.digits_def' (by norm_num : (1 : Nat) < 10) (Nat.succ_pos m)]

theorem natDigitsLE_eq_digits (n : Nat) : natDigitsLE n = Nat.digits 10 n :=
  natDigitsAux_eq_digits n n (Nat.le_refl n)

/-- Big-endian decimal digit characters of `n`, as Python's `str(n)` for
a non-negative `n` (so `natToChars 0 = "0".data`). -/
def natToChars (n : Nat) : List Char :=
  if n = 0 then ['0'] else (natDigitsLE n).reverse.map digitChar

/-- Python's `f"{n:0kd}"`: the decimal form of `n` left-padded with zeros
to a minimum width `k`. -/
def padK (k n : Nat) : List Char :=
  List.replicate (k - (natToChars n).length) '0' ++ natToChars n

/-- Python's `f"{n:08d}"` for a non-negative `n`. -/
def pad8 (n : Nat) : List Char := padK 8 n

theorem natToChars_length (n : Nat) :
    (natToChars n).length = if n = 0 then 1 else (Nat.digits 10 n).length := by
  unfold natToChars
  split
  · rfl
  · simp [natDigitsLE_eq_digits]

theorem natToChars_length_le (n k : Nat) (h0 : 0 < k) (h : n < 10 ^ k) :
    (natToChars n).length ≤ k := by
  rw [natToChars_length]
  split
  · omega
  · rename_i hn
    rw [Nat.digits_len 10 n (by norm_num) hn]
    have : Nat.log 10 n < k := Nat.log_lt_of_lt_pow hn h
    omega

theorem natToChars_length_ge (n k : Nat) (h : 10 ^ k ≤ n) :
    k + 1 ≤ (natToChars n).length := by
  rw [natToChars_length]
  have hk : 0 < 10 ^ k := Nat.pos_pow_of_pos k (by norm_num)
  have hlt : n < 10 ^ (Nat.digits 10 n).length :=
    Nat.lt_base_pow_length_digits (by norm_num)
  have : 10 ^ k < 10 ^ (Nat.digits 10 n).length := by omega
  have hklt : k < (Nat.digits 10 n).length :=
    (Nat.pow_lt_pow_iff_right (by norm_num : 1 < 10)).mp this
  split
  · omega
  · omega

theorem pad8_length_of_lt (n : Nat) (h : n < 10 ^ 8) : (pad8 n).length = 8 := by
  have hle : (natToChars n).length ≤ 8 := natToChars_length_le n 8 (by norm_num) h
  simp [pad8, padK]
  omega

theorem pad8_eq_natToChars_of_ge (n : Nat) (h : 10 ^ 8 ≤ n) :
    pad8 n = natToChars n := by
  have hge : 8 + 1 ≤ (natToChars n).length := natToChars_length_ge n 8 h
  simp [pad8, padK]
  omega

theorem pad8_length_of_ge (n : Nat) (h : 10 ^ 8 ≤ n) : 9 ≤ (pad8 n).length := by
  rw [pad8_eq_natToChars_of_ge n h]
  exact natToChars_length_ge n 8 h

theorem digitVal_digitChar (d : Nat) (h : d < 10) : digitVal (digitChar d) = d := by
  interval_cases d <;> decide

theorem isDigitChar_digitChar (d : Nat) (h : d < 10) : isDigitChar (digitChar d) = true := by
  interval_cases d <;> decide

theorem natToChars_digits (n : Nat) (c : Char) (hc : c ∈ natToChars n) :
    isDigitChar c = true := by
  unfold natToChars at hc
  split at hc
  · simp at hc
    subst hc
    decide
  · simp at hc
    obtain ⟨d, hd, rfl⟩ := hc
    have : d < 10 := Nat.digits_lt_base (by norm_num) (by
      rw [natDigitsLE_eq_digits] at hd
      exact hd)
    exact isDigitChar_digitChar d this

theorem pad8_digits (n : Nat) (c : Char) (hc : c ∈ pad8 n) : isDigitChar c = true := by
  unfold pad8 padK at hc
  rw [List.mem_append] at hc
  rcases hc with hc | hc
  · rw [List.eq_of_mem_replicate hc]
    decide
  · exact natToChars_digits n c hc

/-- Base-10 value of a big-endian digit-character string, as the fold
Python's `int` performs on a digit token. -/
def charsToNat (l : List Char) : Nat :=
  l.foldl (fun a c => a * 10 + digitVal c) 0

theorem foldl_digits_reverse (L : List Nat) (a : Nat) (hL : ∀ d ∈ L, d < 10) :
    (L.reverse.map digitChar).foldl (fun x c => x * 10 + digitVal c) a =
      a * 10 ^ L.length + Nat.ofDigits 10 L := by
  induction L generalizing a with
  | nil => simp
  | cons d t ih =>
    have hd : d < 10 := hL d (List.mem_cons_self d t)
    have ht : ∀ x ∈ t, x < 10 := fun x hx => hL x (List.mem_cons_of_mem d hx)
    simp only [List.reverse_cons, List.map_append, List.foldl_append, List.map_cons,
      List.map_nil, List.foldl_cons, List.foldl_nil]
    rw [ih a ht, digitVal_digitChar d hd, Nat.ofDigits_cons]
    simp [pow_succ]
    ring

theorem charsToNat_natToChars (n : Nat) : charsToNat (natToChars n) = n := by
  unfold charsToNat natToChars
  split
  · subst n; decide
  · rw [natDigitsLE_eq_digits,
      foldl_digits_reverse _ 0 (fun d hd => Nat.digits_lt_base (by norm_num) hd)]
    simp [Nat.ofDigits_digits]

theorem charsToNat_pad8 (n : Nat) : charsToNat (pad8 n) = n := by
  unfold pad8 padK charsToNat
  rw [List.foldl_append]
  have hrep : ∀ (k : Nat) (a : Nat), a = 0 →
      (List.replicate k '0').foldl (fun x c => x * 10 + digitVal c) a = 0 := by
    intro k
    induction k with
    | zero => intro a ha; simp [ha]
    | succ m ih =>
      intro a ha
      rw [List.replicate_succ, List.foldl_cons]
      exact ih _ (by simp [ha]; decide)
  rw [hrep _ 0 rfl]
  exact charsToNat_natToChars n

theorem pad8_injOn (m n : Nat) (h : pad8 m = pad8 n) : m = n := by
  have := charsToNat_pad8 m
  rw [h, charsToNat_pad8] at this
  omega

/-- `startsWithL s p`: `p` is a leading run of `s`. -/
def startsWithL : List Char → List Char → Bool
  | _, [] => true
  | [], _ :: _ => false
  | a :: as, b :: bs => a == b && startsWithL as bs

/-- Python's `suffix in s` substring test / `str.endswith` support:
does `needle` occur contiguously inside `hay`? -/
def containsSub : List Char → List Char → Bool
  | [], needle => startsWithL [] needle
  | c :: t, needle => startsWithL (c :: t) needle || containsSub t needle

/-- Python's `s.endswith(suffix)`. -/
def endsWithL (s suffix : List Char) : Bool :=
  startsWithL s.reverse suffix.reverse

theorem startsWithL_append_self (a b : List Char) : startsWithL (a ++ b) a = true := by
  induction a with
  | nil => cases b <;> rfl
  | cons c t ih => simp [startsWithL, ih]

theorem endsWithL_append_self (a b : List Char) : endsWithL (a ++ b) b = true := by
  unfold endsWithL
  rw [List.reverse_append]
  exact startsWithL_append_self b.reverse a.reverse

/-- Python's `s.isdigit()`: non-empty and every character a decimal digit. -/
def isDigits (l : List Char) : Bool :=
  !l.isEmpty && l.all isDigitChar

/-! ## JSON values and Python-level primitives -/

/-- A parsed JSON value, as Python's `json` module produces it
(`obj` = dict with string keys, `str` carrying `List Char` like every
other modelled string). -/
inductive Json where
  | obj (kvs : List (List Char × Json))
  | arr (elems : List Json)
  | str (s : List Char)
  | num (n : Int)
  | bool (b : Bool)
  | null

/-- The Python exceptions relevant to this program that are not caught by
`fetch_civitai_json`'s handlers. -/
inductive PyExc where
  | typeError
deriving DecidableEq

/-- First value bound to `key` in a Python dict, modelled as an
association list (`d[key]`, guarded by `key in d` at the use site). -/
def lookupKey (key : List Char) : List (List Char × Json) → Option Json
  | [] => none
  | (k, v) :: t => if k == key then some v else lookupKey key t

/-- Python's `key in d` for a dict: key membership. -/
def dictHasKey (key : List Char) (kvs : List (List Char × Json)) : Bool :=
  (kvs.map Prod.fst).contains key

/-- `j` is a Python `str` equal to `s` (so `result == "404"` is
`isStrEq result "404".data`; equality of a str with any non-str is `False`). -/
def isStrEq (j : Json) (s : List Char) : Bool :=
  match j with
  | .str t => t == s
  | _ => false

/-- `j` is a Python dict (`isinstance(j, dict)`). -/
def Json.isObj : Json → Bool
  | .obj _ => true
  | _ => false

/-- Python's `needle in v` for a JSON value `v`: substring test on a str,
element equality on a list, key membership on a dict; on an int, float,
bool or `None` Python raises `TypeError` (`argument of type ... is not
iterable`), which no handler in `fetch_civitai_json` catches. -/
def pyInStr (needle : List Char) (v : Json) : Except PyExc Bool :=
  match v with
  | .str s => .ok (containsSub s needle)
  | .arr elems => .ok (elems.any (fun e => isStrEq e needle))
  | .obj kvs => .ok (dictHasKey needle kvs)
  | .num _ => .error .typeError
  | .bool _ => .error .typeError
  | .null => .error .typeError

/-- Line 91 of the source: `isinstance(data, dict) and "error" in data and
"No model" in data["error"]`, with Python's left-to-right short-circuit. -/
def errCheck (j : Json) : Except PyExc Bool :=
  match j with
  | .obj kvs =>
    if dictHasKey ("error".data) kvs then
      match lookupKey ("error".data) kvs with
      | some v => pyInStr ("No model".data) v
      | none => .ok false
    else .ok false
  | _ => .ok false

/-! ## The remote-fetch collaborator and `fetch_civitai_json` -/

/-- The body of an HTTP response: either it parses (`response.json()`
yields a value) or `response.json()` raises `requests.JSONDecodeError`
(a `RequestException` in the installed requests version, carrying no
truthy response). -/
inductive Body where
  | jsonBody (j : Json)
  | badBody (msg : List Char)

/-- What one `requests.get` attempt does: returns a response with a
status code and body, raises `requests.Timeout`, or raises another
`requests.RequestException` with no response attached (connection
errors and the like). -/
inductive HttpResult where
  | resp (status : Nat) (body : Body)
  | timeout
  | connError (msg : List Char)

/-- Result of `fetch_civitai_json`: the returned Python value (a str
sentinel or the parsed document), the number of requests performed, and
the list of `time.sleep` durations in order. An uncaught exception
(`TypeError` from line 91) is the `.error` case. -/
structure FetchOut where
  result : Except PyExc Json
  attempts : Nat
  sleeps : List Nat

/-- Lines 97-99 of the source: the `except requests.RequestException`
handler computes `code = e.response.status_code if e.response else 'ERR'`
and returns `f"{code} {e}"`. A `requests.Response` is truthy exactly when
`response.ok`, i.e. when its status code is below 400; every exception
that reaches this handler either carries no response (connection errors,
`JSONDecodeError` from `response.json()`) or carries the response whose
`raise_for_status` fired (status ≥ 400, hence falsy), so `code` is the
status only in the unreachable truthy case. -/
def pyExcStr (respStatus : Option Nat) (msg : List Char) : List Char :=
  (match respStatus with
   | some s => if s < 400 then natToChars s else "ERR".data
   | none => "ERR".data) ++ " ".data ++ msg

/-- `str(e)` for the `HTTPError` that `raise_for_status` raises on a
status ≥ 400: a message beginning with the status code. -/
def httpErrMsg (status : Nat) : List Char :=
  natToChars status ++ " HTTP Error".data

/-- Lines 79-100 of the source, `fetch_civitai_json`'s `while` loop.
`fuel` is `retries - attempt` (the loop guard `attempt < retries`),
`att` the current value of `attempt` (which counts the requests already
made, since every earlier iteration ended in a timeout), `sl` the sleeps
performed so far. The oracle gives the outcome of the `requests.get`
call of each attempt. -/
def fetchLoop (oracle : Nat → HttpResult) (backoff : Nat) :
    Nat → Nat → List Nat → FetchOut
  | 0, att, sl => ⟨.ok (.str "timeout".data), att, sl⟩
  | fuel + 1, att, sl =>
    match oracle att with
    | .timeout => fetchLoop oracle backoff fuel (att + 1) (sl ++ [backoff ^ (att + 1)])
    | .connError msg => ⟨.ok (.str (pyExcStr none msg)), att + 1, sl⟩
    | .resp status body =>
      if status == 404 then ⟨.ok (.str "404".data), att + 1, sl⟩
      else if status == 429 then ⟨.ok (.str "429".data), att + 1, sl⟩
      else if 400 ≤ status then
        ⟨.ok (.str (pyExcStr (some status) (httpErrMsg status))), att + 1, sl⟩
      else
        match body with
        | .badBody msg => ⟨.ok (.str (pyExcStr none msg)), att + 1, sl⟩
        | .jsonBody j =>
          match errCheck j with
          | .error e => ⟨.error e, att + 1, sl⟩
          | .ok true => ⟨.ok (.str "404".data), att + 1, sl⟩
          | .ok false => ⟨.ok j, att + 1, sl⟩

/-- `fetch_civitai_json(model_id, retries=3, backoff=2)`; the oracle is
the upstream's behaviour for this model id, per attempt. -/
def fetch_civitai_json (oracle : Nat → HttpResult) (retries : Nat := 3)
    (backoff : Nat := 2) : FetchOut :=
  fetchLoop oracle backoff retries 0 []

/-! ## Storage layout and filesystem model -/

/-- Contents of an on-disk file: a JSON document that `json.load` parses,
or bytes it does not (truncated writes, empty files, corruption). -/
inductive FileData where
  | valid (j : Json)
  | invalid

/-- One file in the output tree: its bucket directory name, its base
name, and its data. `os.walk` sees the base name; a path is the
(dir, name) pair (all paths are relative to `output_dir`). -/
structure FEntry where
  dir : List Char
  name : List Char
  data : FileData

/-- `get_folder_name(model_id)` (lines 36-38):
`f"{(model_id // BLOCK_SIZE) * BLOCK_SIZE:08d}"` with `BLOCK_SIZE = 10000`. -/
def get_folder_name (model_id : Nat) : List Char :=
  pad8 (model_id / 10000 * 10000)

/-- Base name of the file for a model id: `f"{model_id:08d}.json"`. -/
def storName (model_id : Nat) : List Char :=
  pad8 model_id ++ ".json".data

/-- The data at a path, `none` when no file exists there. -/
def fileAt (fs : List FEntry) (dir name : List Char) : Option FileData :=
  (fs.find? (fun e => e.dir == dir && e.name == name)).map (·.data)

/-- `is_valid_json_file` (lines 48-54) on what is at a path: parse
succeeds only for an existing file holding a valid document; a missing
path is not valid either (the caller checks existence first). -/
def isValidAt (fs : List FEntry) (dir name : List Char) : Bool :=
  match fileAt fs dir name with
  | some (.valid _) => true
  | _ => false

/-- Replace the file at (dir, name), or create it. -/
def fsWrite (fs : List FEntry) (dir name : List Char) (d : FileData) : List FEntry :=
  if fs.any (fun e => e.dir == dir && e.name == name) then
    fs.map (fun e => if e.dir == dir && e.name == name then ⟨dir, name, d⟩ else e)
  else fs ++ [⟨dir, name, d⟩]

/-- A primitive filesystem action performed by the persistence code.
`rename` is included so that its absence from the write sequence is a
statement about the source, which performs none. -/
inductive FsOp where
  | mkdirs (dir : List Char)
  | createTrunc (dir name : List Char)
  | writeData (dir name : List Char) (j : Json)
  | rename (dir fromName toName : List Char)

def FsOp.isRename : FsOp → Bool
  | .rename _ _ _ => true
  | _ => false

def applyOp (fs : List FEntry) : FsOp → List FEntry
  | .mkdirs _ => fs
  | .createTrunc dir name => fsWrite fs dir name .invalid
  | .writeData dir name j => fsWrite fs dir name (.valid j)
  | .rename dir fromName toName =>
    match fileAt fs dir fromName with
    | some d => fsWrite (fs.filter (fun e => !(e.dir == dir && e.name == fromName)))
        dir toName d
    | none => fs

def applyOps (fs : List FEntry) (ops : List FsOp) : List FEntry :=
  ops.foldl applyOp fs

/-- Lines 152-154 of the source, the persistence of a fetched document:
`os.makedirs(folder, exist_ok=True)`, then `open(filepath, 'w')` — which
creates or truncates the file at its final path, leaving it empty — then
`json.dump(result, f, indent=4, ensure_ascii=False)` streaming the
document into it. No temporary name and no rename is used. -/
def writeSteps (model_id : Nat) (doc : Json) : List FsOp :=
  [ .mkdirs (get_folder_name model_id),
    .createTrunc (get_folder_name model_id) (storName model_id),
    .writeData (get_folder_name model_id) (storName model_id) doc ]

/-! ## Run state, `download_model`, and the worker pool -/

/-- Durable and in-memory state threaded through a run: the output tree,
the three log files (`downloaded.txt`, `notfound.txt`, `errors.txt`) as
their lines in append order, and the in-memory `downloaded_set` shared
with the workers. -/
structure RunState where
  fs : List FEntry
  dl : List (List Char)
  nf : List (List Char)
  er : List (List Char)
  dlSet : List (List Char)

/-- Total number of log lines, for counting ledger appends. -/
def logLen (st : RunState) : Nat :=
  st.dl.length + st.nf.length + st.er.length

/-- `download_model` (lines 132-157). Returns the state after the task,
whether the task dispatched a fetch (reached line 141), and the uncaught
exception if one escaped (the only raise point is inside
`fetch_civitai_json`, before any log append or file write, so the
escaping case leaves the state unchanged). -/
def download_model (oracle : Nat → HttpResult) (model_id : Nat)
    (st : RunState) (force : Bool) : RunState × Bool × Option PyExc :=
  let id8 := pad8 model_id
  let folder := get_folder_name model_id
  let fname := storName model_id
  if !force && (fileAt st.fs folder fname).isSome && isValidAt st.fs folder fname
      && st.dlSet.contains id8 then
    (st, false, none)
  else
    match (fetch_civitai_json oracle).result with
    | .error e => (st, true, some e)
    | .ok result =>
      if isStrEq result "404".data then
        ({ st with nf := st.nf ++ [id8] }, true, none)
      else if isStrEq result "429".data then
        ({ st with er := st.er ++ [id8 ++ " # 429 Too Many Requests".data] }, true, none)
      else
        match result with
        | .str s => ({ st with er := st.er ++ [id8 ++ " # ".data ++ s] }, true, none)
        | _ =>
          ({ st with
              fs := applyOps st.fs (writeSteps model_id result),
              dl := st.dl ++ [id8],
              dlSet := st.dlSet ++ [id8] }, true, none)

/-- The worker pool of `download_models_threaded` (lines 168-171):
every candidate id is submitted as one task; the futures are never
inspected, so an exception inside a task is captured by its future and
silently dropped while the remaining tasks still run. Returns the final
state and the ids for which a fetch was dispatched. -/
def runTasks (oracle : Nat → Nat → HttpResult) (force : Bool)
    (ids : List Nat) (st : RunState) : RunState × List Nat :=
  ids.foldl
    (fun acc id =>
      let r := download_model (oracle id) id acc.1 force
      (r.1, acc.2 ++ if r.2.1 then [id] else []))
    (st, [])

/-- `download_models_threaded` (lines 159-171): reloads `downloaded.txt`
into the shared `downloaded_set` and dispatches the tasks. -/
def download_models_threaded (oracle : Nat → Nat → HttpResult) (force : Bool)
    (ids : List Nat) (st : RunState) : RunState × List Nat :=
  runTasks oracle force ids { st with dlSet := st.dl }

/-! ## Reconciler: `scan_existing_json` and `rebuild_downloaded_log` -/

/-- The per-file condition of `scan_existing_json` (line 61):
`file.endswith('.json') and file[:8].isdigit()`. -/
def scanNameOk (name : List Char) : Bool :=
  endsWithL name (".json".data) && isDigits (name.take 8)

/-- `scan_existing_json` (lines 56-69): walk every file of the output
tree and collect `file[:8]` — the first eight characters of the base
name — for every file whose name passes `scanNameOk` and whose contents
parse as JSON. The walk appends conditionally, i.e. is a `filterMap`;
set semantics is applied by the caller. -/
def scan_existing_json (fs : List FEntry) : List (List Char) :=
  fs.filterMap (fun e =>
    if scanNameOk e.name then
      match e.data with
      | .valid _ => some (e.name.take 8)
      | .invalid => none
    else none)

/-- Lexicographic `≤` on strings via character code points, as Python's
`sorted` compares strings. -/
def lexLe : List Char → List Char → Bool
  | [], _ => true
  | _ :: _, [] => false
  | a :: as, b :: bs =>
    if a.toNat < b.toNat then true
    else if b.toNat < a.toNat then false
    else lexLe as bs

/-- Insertion of a string into a sorted list. -/
def sortInsert (x : List Char) : List (List Char) → List (List Char)
  | [] => [x]
  | y :: t => if lexLe x y then x :: y :: t else y :: sortInsert x t

/-- Insertion sort, modelling `sorted(...)`. -/
def sortL : List (List Char) → List (List Char)
  | [] => []
  | x :: t => sortInsert x (sortL t)

theorem mem_sortInsert (a x : List Char) (l : List (List Char)) :
    a ∈ sortInsert x l ↔ a = x ∨ a ∈ l := by
  induction l with
  | nil => simp [sortInsert]
  | cons y t ih =>
    unfold sortInsert
    split
    · simp
    · simp [ih]
      tauto

theorem mem_sortL (a : List Char) (l : List (List Char)) : a ∈ sortL l ↔ a ∈ l := by
  induction l with
  | nil => simp [sortL]
  | cons x t ih => simp [sortL, mem_sortInsert, ih]

/-- `rebuild_downloaded_log` (lines 71-77): the new contents of
`downloaded.txt`, `sorted(set(scan_existing_json(...)))`, one id string
per line. -/
def rebuild_downloaded_log (fs : List FEntry) : List (List Char) :=
  sortL (scan_existing_json fs).dedup

theorem mem_rebuild (a : List Char) (fs : List FEntry) :
    a ∈ rebuild_downloaded_log fs ↔ a ∈ scan_existing_json fs := by
  rw [rebuild_downloaded_log, mem_sortL, List.mem_dedup]

/-! ## The run modes of `main` -/

/-- The rebuild step of `main` (lines 208-211): when `downloaded.txt` is
missing or empty, reconstruct it from the output tree. A missing and an
empty log both load as no lines. -/
def rebuildStep (st : RunState) : RunState :=
  if st.dl.isEmpty then { st with dl := rebuild_downloaded_log st.fs } else st

/-- The range-mode planner (lines 216-218): all ids of
`range(start, end + 1)` whose 8-digit string is not in the deduplicated
`downloaded.txt`. `notfound.txt` is not consulted. -/
def rangeCandidates (start stop : Nat) (dlLines : List (List Char)) : List Nat :=
  (List.range' start (stop + 1 - start)).filter
    (fun i => !dlLines.contains (pad8 i))

/-- A full range-mode run of `main` (lines 208-219): the rebuild step,
then the planner over the reloaded log, then the threaded download with
`force=False`. Returns the end state and the ids that were fetched. -/
def mainRange (oracle : Nat → Nat → HttpResult) (start stop : Nat)
    (st : RunState) : RunState × List Nat :=
  let st1 := rebuildStep st
  let ids := rangeCandidates start stop st1.dl
  download_models_threaded oracle false ids st1

/-! ## Retry-mode planner -/

/-- Python's `int(tok)` on a stripped token: an optional sign followed by
at least one decimal digit (the only token shapes this tool's logs can
contain). Other shapes raise `ValueError`, modelled as `none`. -/
def pyInt (tok : List Char) : Option Int :=
  match tok with
  | '-' :: rest =>
    if isDigits rest then some (-(charsToNat rest : Int)) else none
  | '+' :: rest =>
    if isDigits rest then some ((charsToNat rest : Int)) else none
  | rest =>
    if isDigits rest then some ((charsToNat rest : Int)) else none

/-- Python's `str.isspace` characters relevant to log lines. -/
def isWsChar (c : Char) : Bool :=
  c == ' ' || c == '\t' || c == '\n' || c == '\r'

/-- `line.strip().split()[0]` followed by `int(...)` (line 184): strip
surrounding whitespace, split on whitespace runs, take the first token
and parse it; any failure (no token, non-numeric token) is caught by the
bare `except` and skips the line. -/
def parseIntTok (line : List Char) : Option Int :=
  match (line.dropWhile isWsChar).takeWhile (fun c => !isWsChar c) with
  | [] => none
  | tok => pyInt tok

/-- Python's `f"{i:08d}"` for a possibly negative `i`: total width 8
including the sign. -/
def pad8Int (i : Int) : List Char :=
  if i < 0 then '-' :: padK 7 i.natAbs else pad8 i.toNat

/-- The retry-mode planner, `retry_failed_models` lines 177-188: for each
line of `errors.txt`, skip it when it contains the substring `# 404`,
otherwise parse `int(line.strip().split()[0])` (any failure skipped by
the bare `except`), and keep the id when `f"{model_id:08d}"` is not in
the loaded `downloaded` set. The conditional appends of the loop are a
`filterMap`. -/
def retryCandidates (errLines dlSet : List (List Char)) : List Int :=
  errLines.filterMap (fun line =>
    if containsSub line ("# 404".data) then none
    else
      match parseIntTok line with
      | none => none
      | some i => if dlSet.contains (pad8Int i) then none else some i)

/-! ## Frontier-crawl mode -/

/-- The crawl loop of `main` (lines 228-245). `fr i` is the value of
`fetch_civitai_json(i)` — or the exception escaping it, which here would
crash the whole run since the loop body runs on the main thread. `fuel`
bounds the number of loop-guard evaluations so the function is total;
`.ok none` means the fuel ran out before the guard failed. `highest` and
`count` are the `highest` / `consecutive_404s` variables, `acc` the
`model_ids` list so far (each discovered id is also appended to
`crawled.txt`, which this list therefore equals for an initially absent
log). -/
def crawlLoop (fr : Nat → Except PyExc Json) :
    Nat → Nat → Nat → List Nat → Except PyExc (Option (List Nat × Nat))
  | 0, _, _, _ => .ok none
  | fuel + 1, highest, count, acc =>
    if 200 ≤ count then .ok (some (acc, highest))
    else
      match fr (highest + 1) with
      | .error e => .error e
      | .ok status =>
        if isStrEq status ("404".data) then
          crawlLoop fr fuel (highest + 1) (count + 1) acc
        else if status.isObj then
          crawlLoop fr fuel (highest + 1) 0 (acc ++ [highest + 1])
        else
          crawlLoop fr fuel (highest + 1) count acc

/-- A frontier crawl from `start` (the `highest` variable's initial
value, `max(int(i) for i in downloaded_set)` or `1_000_000`): the
discovered ids and the final value of `highest`. -/
def crawlFrom (fr : Nat → Except PyExc Json) (fuel start : Nat) :
    Except PyExc (Option (List Nat × Nat)) :=
  crawlLoop fr fuel start 0 []

/-! ## General facts about the storage names -/

theorem pad8_length_ge_8 (n : Nat) : 8 ≤ (pad8 n).length := by
  simp [pad8, padK]
  omega

theorem take8_storName (id : Nat) : (storName id).take 8 = (pad8 id).take 8 :=
  List.take_append_of_le_length (pad8_length_ge_8 id)

theorem take8_pad8_of_lt (id : Nat) (h : id < 10 ^ 8) : (pad8 id).take 8 = pad8 id :=
  List.take_of_length_le (by rw [pad8_length_of_lt id h])

theorem scanNameOk_storName (id : Nat) : scanNameOk (storName id) = true := by
  unfold scanNameOk storName
  rw [Bool.and_eq_true]
  constructor
  · exact endsWithL_append_self (pad8 id) (".json".data)
  · rw [← storName, take8_storName, isDigits, Bool.and_eq_true]
    constructor
    · have := pad8_length_ge_8 id
      rcases h8 : (pad8 id).take 8 with _ | ⟨c, t⟩
      · have : ((pad8 id).take 8).length = min 8 (pad8 id).length := by simp
        rw [h8] at this
        simp at this
        omega
      · simp
    · rw [List.all_eq_true]
      intro c hc
      exact pad8_digits id c (List.mem_of_mem_take hc)

/-! ## Claim theorems -/

/-- Claim C6: when every request attempt for an id times out, the
classifier makes exactly 3 attempts, sleeping a monotonically increasing
exponential-backoff (base 2) delay after each timed-out attempt, and
then returns the string outcome `"timeout"` without raising. -/
theorem timeout_exhaustion_behaviour (oracle : Nat → HttpResult)
    (h : ∀ k, oracle k = HttpResult.timeout) :
    fetch_civitai_json oracle =
      ⟨.ok (.str "timeout".data), 3, [2 ^ 1, 2 ^ 2, 2 ^ 3]⟩ ∧
    (fetch_civitai_json oracle).sleeps.Chain' (· < ·) := by
  have hrun : fetch_civitai_json oracle =
      ⟨.ok (.str "timeout".data), 3, [2 ^ 1, 2 ^ 2, 2 ^ 3]⟩ := by
    simp only [fetch_civitai_json, fetchLoop, h]
    rfl
  refine ⟨hrun, ?_⟩
  rw [hrun]
  simp [List.chain'_cons, List.chain'_singleton]

/-- Witness for C6 at the concrete always-timeout upstream. -/
theorem timeout_exhaustion_behaviour_witness :
    fetch_civitai_json (fun _ => HttpResult.timeout) =
      ⟨.ok (.str "timeout".data), 3, [2 ^ 1, 2 ^ 2, 2 ^ 3]⟩ :=
  (timeout_exhaustion_behaviour (fun _ => HttpResult.timeout) (fun _ => rfl)).1

/-- Claim C10: the reconciler scan takes a file's id to be the first 8
characters of its name. For an id below `10^8` the recorded string is
exactly `f"{id:08d}"`; for an id at or above `10^8` the recorded string
is a strict 8-character prefix of the (longer) string that
`download_model` writes to the ledger, and so differs from it. -/
theorem scan_records_first_eight (id : Nat) (doc : Json) :
    (id < 10 ^ 8 →
      scan_existing_json [⟨get_folder_name id, storName id, .valid doc⟩] = [pad8 id]) ∧
    (10 ^ 8 ≤ id →
      scan_existing_json [⟨get_folder_name id, storName id, .valid doc⟩] =
        [(pad8 id).take 8] ∧
      (pad8 id).take 8 ++ (pad8 id).drop 8 = pad8 id ∧
      ((pad8 id).take 8).length = 8 ∧
      (pad8 id).take 8 ≠ pad8 id) := by
  have hscan : scan_existing_json [⟨get_folder_name id, storName id, .valid doc⟩] =
      [(pad8 id).take 8] := by
    unfold scan_existing_json
    simp [scanNameOk_storName id, take8_storName id]
  constructor
  · intro h
    rw [hscan, take8_pad8_of_lt id h]
  · intro h
    have hlen9 : 9 ≤ (pad8 id).length := pad8_length_of_ge id h
    have hlen : ((pad8 id).take 8).length = 8 := by
      simp
      omega
    refine ⟨hscan, List.take_append_drop 8 (pad8 id), hlen, ?_⟩
    intro heq
    rw [heq] at hlen
    omega

/-- Witness for C10 at ids 5 and `10^8`. -/
theorem scan_records_first_eight_witness :
    scan_existing_json [⟨get_folder_name 5, storName 5, .valid .null⟩] = [pad8 5] ∧
    ((pad8 100000000).take 8 ≠ pad8 100000000 ∧
      scan_existing_json
        [⟨get_folder_name 100000000, storName 100000000, .valid .null⟩] =
        [(pad8 100000000).take 8]) :=
  ⟨(scan_records_first_eight 5 .null).1 (by norm_num),
   ⟨((scan_records_first_eight 100000000 .null).2 (by norm_num)).2.2.2,
    ((scan_records_first_eight 100000000 .null).2 (by norm_num)).1⟩⟩

theorem fileAt_fsWrite (fs : List FEntry) (dir name : List Char) (d : FileData) :
    fileAt (fsWrite fs dir name d) dir name = some d := by
  unfold fsWrite fileAt
  by_cases h : fs.any (fun e => e.dir == dir && e.name == name) = true
  · rw [if_pos h]
    induction fs with
    | nil => simp at h
    | cons e t ih =>
      by_cases he : (e.dir == dir && e.name == name) = true
      · rw [List.map_cons, if_pos he]
        have hfind : List.find? (fun e => e.dir == dir && e.name == name)
            ((⟨dir, name, d⟩ : FEntry) :: List.map (fun e =>
              if (e.dir == dir && e.name == name) = true then
                (⟨dir, name, d⟩ : FEntry) else e) t) =
            some ⟨dir, name, d⟩ :=
          List.find?_cons_of_pos _ (by simp)
        rw [hfind]
        rfl
      · rw [List.map_cons, if_neg he]
        have hfind : List.find? (fun e => e.dir == dir && e.name == name)
            (e :: List.map (fun e =>
              if (e.dir == dir && e.name == name) = true then
                (⟨dir, name, d⟩ : FEntry) else e) t) =
            List.find? (fun e => e.dir == dir && e.name == name)
              (List.map (fun e =>
                if (e.dir == dir && e.name == name) = true then
                  (⟨dir, name, d⟩ : FEntry) else e) t) :=
          List.find?_cons_of_neg _ he
        rw [hfind]
        apply ih
        rw [List.any_cons, Bool.or_eq_true] at h
        rcases h with h | h
        · exact absurd h he
        · exact h
  · rw [if_neg h, List.find?_append]
    have hnone : fs.find? (fun e => e.dir == dir && e.name == name) = none := by
      rw [List.find?_eq_none]
      intro x hx hp
      rw [Bool.not_eq_true, List.any_eq_false] at h
      exact h x hx hp
    rw [hnone]
    simp [List.find?]

/-- Claim C8: retry mode's candidate list holds exactly the ids of
`errors.txt` lines that do not contain the substring `# 404`, whose
first token parses as an integer id, and whose 8-width id string is not
in the deduplicated `downloaded` set; malformed lines contribute nothing
(the planner is a total function), and in particular timeout-, 429- and
5xx-tagged lines pass the `# 404` filter. -/
theorem retry_candidates_iff (errLines dlSet : List (List Char)) (i : Int) :
    i ∈ retryCandidates errLines dlSet ↔
      ∃ line ∈ errLines,
        containsSub line ("# 404".data) = false ∧
        parseIntTok line = some i ∧
        dlSet.contains (pad8Int i) = false := by
  unfold retryCandidates
  rw [List.mem_filterMap]
  constructor
  · rintro ⟨line, hline, hsome⟩
    refine ⟨line, hline, ?_⟩
    cases h404 : containsSub line ("# 404".data) with
    | true => rw [h404] at hsome; simp at hsome
    | false =>
      rw [h404] at hsome
      simp only [Bool.false_eq_true, if_false] at hsome
      cases hp : parseIntTok line with
      | none => rw [hp] at hsome; cases hsome
      | some j =>
        rw [hp] at hsome
        dsimp only at hsome
        cases hdl : dlSet.contains (pad8Int j) with
        | true => rw [hdl] at hsome; simp at hsome
        | false =>
          rw [hdl] at hsome
          simp only [Bool.false_eq_true, if_false] at hsome
          cases hsome
          exact ⟨rfl, rfl, hdl⟩
  · rintro ⟨line, hline, h404, hp, hdl⟩
    refine ⟨line, hline, ?_⟩
    simp only [h404, hp, Bool.false_eq_true, if_false]
    rw [hdl]
    simp

/-- Claim C4 is false of the code: the persistence path of
`download_model` opens `StoragePath(id)` itself and streams into it —
no step of the write sequence is a rename, and interrupting after the
`open` (the first two of the three filesystem actions) leaves a file at
`StoragePath(id)` that is not the full document: an empty, invalid file
visible to later validators. Shown at id 1 over an empty tree. -/
theorem write_not_atomic_counterexample :
    ((writeSteps 1 (.obj [])).all (fun op => !op.isRename) = true) ∧
    fileAt (applyOps [] ((writeSteps 1 (.obj [])).take 2))
        (get_folder_name 1) (storName 1) = some .invalid ∧
    isValidAt (applyOps [] ((writeSteps 1 (.obj [])).take 2))
        (get_folder_name 1) (storName 1) = false := by
  refine ⟨rfl, ?_, ?_⟩ <;> rfl

/-- Amended C4: the write is direct, not temp-file-and-rename: the step
sequence is mkdirs, open-at-final-path (truncating), stream document;
none of the steps is a rename; the completed sequence leaves the valid
document at StoragePath(id), while the prefix interrupted right after
the open leaves an invalid (empty) file there. -/
theorem write_direct_not_renamed (id : Nat) (doc : Json) (fs : List FEntry) :
    (∀ op ∈ writeSteps id doc, op.isRename = false) ∧
    fileAt (applyOps fs (writeSteps id doc)) (get_folder_name id) (storName id)
      = some (.valid doc) ∧
    fileAt (applyOps fs ((writeSteps id doc).take 2)) (get_folder_name id) (storName id)
      = some .invalid := by
  refine ⟨?_, ?_, ?_⟩
  · intro op hop
    unfold writeSteps at hop
    simp at hop
    rcases hop with h | h | h <;> rw [h] <;> rfl
  · show fileAt (fsWrite (fsWrite fs (get_folder_name id) (storName id) .invalid)
        (get_folder_name id) (storName id) (.valid doc)) (get_folder_name id) (storName id)
      = some (.valid doc)
    exact fileAt_fsWrite _ _ _ _
  · show fileAt (fsWrite fs (get_folder_name id) (storName id) .invalid)
        (get_folder_name id) (storName id) = some .invalid
    exact fileAt_fsWrite _ _ _ _

/-- Witness for C8: the timeout-tagged line for id 5 is in the candidate
set when the downloaded log is empty. -/
theorem retry_candidates_iff_witness :
    (5 : Int) ∈ retryCandidates ["00000005 # timeout".data] [] :=
  (retry_candidates_iff ["00000005 # timeout".data] [] 5).mpr
    ⟨"00000005 # timeout".data, by simp, by decide, by decide, by decide⟩

/-- Witness for C4's amended statement: at id 2 over an empty tree the
completed write leaves the valid document at its storage path. -/
theorem write_direct_not_renamed_witness :
    fileAt (applyOps [] (writeSteps 2 .null)) (get_folder_name 2) (storName 2)
      = some (.valid .null) :=
  (write_direct_not_renamed 2 .null []).2.1

/-- An upstream that answers every request with a bare 404. -/
def always404 : Nat → Nat → HttpResult := fun _ _ => .resp 404 (.badBody [])

/-- Claim C2 is false of the code: with `notfound.txt` containing
`00000002` and `downloaded.txt` empty, a subsequent range-mode run over
[2, 2] dispatches a fetch for id 2 (and, the upstream still answering
404, logs it to `notfound.txt` a second time). Range mode filters its
candidates only against the downloaded log; `notfound.txt` is never
consulted by any mode of the script. -/
theorem notfound_redispatched_counterexample :
    (mainRange always404 2 2 ⟨[], [], ["00000002".data], [], []⟩).2 = [2] ∧
    (mainRange always404 2 2 ⟨[], [], ["00000002".data], [], []⟩).1.nf =
      ["00000002".data, "00000002".data] := by
  constructor <;> rfl

/-- Amended C2: an id whose 8-width string is logged in `notfound.txt`
is still dispatched by a subsequent range-mode run whenever it lies in
[start, stop] and is not in the downloaded log: the range planner is
determined solely by the downloaded log, and the script has no
not-found exclusion and no recheck gate for `notfound.txt`. -/
theorem range_ignores_notfound (start stop id : Nat)
    (dlLines nfLines : List (List Char))
    (hlo : start ≤ id) (hhi : id ≤ stop)
    (hdl : dlLines.contains (pad8 id) = false)
    (hnf : pad8 id ∈ nfLines) :
    id ∈ rangeCandidates start stop dlLines := by
  unfold rangeCandidates
  rw [List.mem_filter, List.mem_range'_1]
  refine ⟨⟨hlo, by omega⟩, ?_⟩
  rw [hdl]
  rfl

/-- Witness for C2's amended statement at id 2, range [2, 2]. -/
theorem range_ignores_notfound_witness :
    2 ∈ rangeCandidates 2 2 [] :=
  range_ignores_notfound 2 2 2 [] ["00000002".data]
    (by norm_num) (by norm_num) rfl (by decide)

/-- Claim C3 is false of the code: with `downloaded.txt` non-empty and
listing id 5 while the file at StoragePath(5) is invalid, a range-mode
run over [5, 5] dispatches no fetch at all — line 218 filters the id
out on ledger membership alone, before the corruption check inside
`download_model` (line 137) could ever run — and the invalid file
remains on disk. -/
theorem corrupt_not_rescheduled_counterexample :
    (mainRange always404 5 5
      ⟨[⟨get_folder_name 5, storName 5, .invalid⟩],
        ["00000005".data], [], [], []⟩).2 = [] ∧
    fileAt (mainRange always404 5 5
      ⟨[⟨get_folder_name 5, storName 5, .invalid⟩],
        ["00000005".data], [], [], []⟩).1.fs
      (get_folder_name 5) (storName 5) = some .invalid := by
  constructor <;> rfl

theorem dictHasKey_false_of_lookup_none (key : List Char) :
    ∀ (kvs : List (List Char × Json)), lookupKey key kvs = none →
      dictHasKey key kvs = false
  | [], _ => rfl
  | (k, v) :: t, h => by
    unfold lookupKey at h
    by_cases hk : (k == key) = true
    · rw [if_pos hk] at h; cases h
    · rw [if_neg hk] at h
      unfold dictHasKey
      simp only [List.map_cons, List.contains_cons]
      rw [Bool.or_eq_false_iff]
      constructor
      · rw [Bool.eq_false_iff]
        intro hke
        exact hk (beq_iff_eq.mpr (beq_iff_eq.mp hke).symm)
      · exact dictHasKey_false_of_lookup_none key t h

theorem errCheck_plain (kvs : List (List Char × Json))
    (hplain : lookupKey ("error".data) kvs = none) :
    errCheck (.obj kvs) = .ok false := by
  unfold errCheck
  dsimp only
  rw [dictHasKey_false_of_lookup_none ("error".data) kvs hplain]
  rfl

/-- A 200 response whose body is a dict without an `error` key is
returned as the parsed document on the first attempt. -/
theorem fetch_plain_doc (oracle : Nat → HttpResult) (kvs : List (List Char × Json))
    (h0 : oracle 0 = .resp 200 (.jsonBody (.obj kvs)))
    (hplain : lookupKey ("error".data) kvs = none) :
    fetch_civitai_json oracle = ⟨.ok (.obj kvs), 1, []⟩ := by
  simp only [fetch_civitai_json, fetchLoop, h0, errCheck_plain kvs hplain]
  rfl

theorem fileAt_self_singleton (id : Nat) (d : FileData) :
    fileAt [⟨get_folder_name id, storName id, d⟩]
      (get_folder_name id) (storName id) = some d := by
  unfold fileAt
  have hfind : List.find?
      (fun (e : FEntry) => e.dir == get_folder_name id && e.name == storName id)
      [⟨get_folder_name id, storName id, d⟩] =
      some ⟨get_folder_name id, storName id, d⟩ :=
    List.find?_cons_of_pos _ (by simp)
  rw [hfind]
  rfl

theorem scan_invalid_singleton (id : Nat) :
    scan_existing_json [⟨get_folder_name id, storName id, .invalid⟩] = [] := by
  unfold scan_existing_json
  simp [scanNameOk_storName id]

/-- Amended C3: re-fetch of a corrupt file happens only through the
log-rebuild path. When `downloaded.txt` is missing or empty at run
start, the rebuild scans the tree, omits the invalid file, and the
range run then re-fetches the id and overwrites the invalid file with
the fetched document, appending the id to the ledger once. (When the
log is non-empty and lists the id, no re-schedule happens — the
counterexample above.) -/
theorem corrupt_refetched_after_rebuild (id : Nat) (kvs : List (List Char × Json))
    (oracle : Nat → Nat → HttpResult)
    (horacle : oracle id 0 = .resp 200 (.jsonBody (.obj kvs)))
    (hplain : lookupKey ("error".data) kvs = none) :
    (mainRange oracle id id
        ⟨[⟨get_folder_name id, storName id, .invalid⟩], [], [], [], []⟩).2 = [id] ∧
    fileAt (mainRange oracle id id
        ⟨[⟨get_folder_name id, storName id, .invalid⟩], [], [], [], []⟩).1.fs
      (get_folder_name id) (storName id) = some (.valid (.obj kvs)) ∧
    (mainRange oracle id id
        ⟨[⟨get_folder_name id, storName id, .invalid⟩], [], [], [], []⟩).1.dl
      = [pad8 id] := by
  have hreb : rebuildStep ⟨[⟨get_folder_name id, storName id, .invalid⟩], [], [], [], []⟩ =
      ⟨[⟨get_folder_name id, storName id, .invalid⟩], [], [], [], []⟩ := by
    unfold rebuildStep rebuild_downloaded_log
    rw [scan_invalid_singleton]
    rfl
  have hcand : rangeCandidates id id [] = [id] := by
    unfold rangeCandidates
    rw [show id + 1 - id = 1 by omega, List.range'_one]
    simp [List.filter]
  have hmain : mainRange oracle id id
      ⟨[⟨get_folder_name id, storName id, .invalid⟩], [], [], [], []⟩ =
      (⟨applyOps [⟨get_folder_name id, storName id, .invalid⟩]
          (writeSteps id (.obj kvs)),
        [pad8 id], [], [], [pad8 id]⟩, [id]) := by
    unfold mainRange
    rw [hreb]
    dsimp only
    rw [hcand]
    unfold download_models_threaded runTasks
    simp only [List.foldl_cons, List.foldl_nil]
    unfold download_model
    rw [fetch_plain_doc (oracle id) kvs horacle hplain]
    dsimp only
    rw [fileAt_self_singleton id .invalid]
    unfold isValidAt
    rw [fileAt_self_singleton id .invalid]
    dsimp only
    rfl
  rw [hmain]
  refine ⟨rfl, ?_, rfl⟩
  show fileAt (fsWrite (fsWrite [⟨get_folder_name id, storName id, .invalid⟩]
      (get_folder_name id) (storName id) .invalid)
      (get_folder_name id) (storName id) (.valid (.obj kvs)))
      (get_folder_name id) (storName id) = some (.valid (.obj kvs))
  exact fileAt_fsWrite _ _ _ _

/-- Witness for C3's amended statement at id 5 with the empty document. -/
theorem corrupt_refetched_after_rebuild_witness :
    (mainRange (fun _ _ => .resp 200 (.jsonBody (.obj []))) 5 5
        ⟨[⟨get_folder_name 5, storName 5, .invalid⟩], [], [], [], []⟩).2 = [5] :=
  (corrupt_refetched_after_rebuild 5 []
    (fun _ _ => .resp 200 (.jsonBody (.obj []))) rfl rfl).1

/-- `v` supports Python's `in` containment test (str, list or dict);
an int, float, bool or `None` in the `error` field makes line 91 raise
`TypeError`. -/
def containerVal : Json → Bool
  | .str _ => true
  | .arr _ => true
  | .obj _ => true
  | _ => false

theorem errCheck_ok_of_safe (j : Json)
    (h : ∀ kvs v, j = .obj kvs → lookupKey ("error".data) kvs = some v →
      containerVal v = true) :
    ∃ b, errCheck j = .ok b := by
  cases j with
  | obj kvs =>
    unfold errCheck
    dsimp only
    by_cases hk : dictHasKey ("error".data) kvs = true
    · rw [if_pos hk]
      cases hl : lookupKey ("error".data) kvs with
      | none => exact ⟨false, rfl⟩
      | some v =>
        have hc := h kvs v rfl hl
        cases v with
        | str s => exact ⟨_, rfl⟩
        | arr elems => exact ⟨_, rfl⟩
        | obj kvs2 => exact ⟨_, rfl⟩
        | num n => cases hc
        | bool b => cases hc
        | null => cases hc
    · rw [if_neg hk]
      exact ⟨false, rfl⟩
  | arr elems => exact ⟨false, rfl⟩
  | str s => exact ⟨false, rfl⟩
  | num n => exact ⟨false, rfl⟩
  | bool b => exact ⟨false, rfl⟩
  | null => exact ⟨false, rfl⟩

theorem fetchLoop_ok_of_safe (oracle : Nat → HttpResult)
    (hsafe : ∀ k s kvs v, oracle k = .resp s (.jsonBody (.obj kvs)) →
      lookupKey ("error".data) kvs = some v → containerVal v = true) :
    ∀ fuel att sl, ∃ j, (fetchLoop oracle 2 fuel att sl).result = .ok j := by
  intro fuel
  induction fuel with
  | zero =>
    intro att sl
    exact ⟨.str "timeout".data, rfl⟩
  | succ f ih =>
    intro att sl
    unfold fetchLoop
    cases ho : oracle att with
    | timeout => exact ih (att + 1) (sl ++ [2 ^ (att + 1)])
    | connError msg => exact ⟨_, rfl⟩
    | resp status body =>
      dsimp only
      by_cases h4 : (status == 404) = true
      · rw [if_pos h4]
        exact ⟨_, rfl⟩
      · rw [if_neg h4]
        by_cases h9 : (status == 429) = true
        · rw [if_pos h9]
          exact ⟨_, rfl⟩
        · rw [if_neg h9]
          by_cases he : 400 ≤ status
          · rw [if_pos he]
            exact ⟨_, rfl⟩
          · rw [if_neg he]
            cases body with
            | badBody msg => exact ⟨_, rfl⟩
            | jsonBody j =>
              have hok : ∃ b, errCheck j = .ok b := by
                apply errCheck_ok_of_safe
                intro kvs v hj hl
                exact hsafe att status kvs v (by rw [ho, hj]) hl
              obtain ⟨b, hb⟩ := hok
              dsimp only
              rw [hb]
              cases b with
              | true => exact ⟨_, rfl⟩
              | false => exact ⟨j, rfl⟩

/-- An upstream whose 200 body is `{"error": 0}`: valid JSON, a dict
with an `error` key whose value is an int. -/
def badErrOracle : Nat → HttpResult :=
  fun _ => .resp 200 (.jsonBody (.obj [("error".data, .num 0)]))

/-- Claim C7 is false of the code: the upstream response
`200 {"error": 0}` makes line 91 (`"No model" in data["error"]`) raise
`TypeError`, which neither `except` clause of `fetch_civitai_json`
catches; the exception escapes the worker task — it is silently
swallowed by the never-inspected future — and the task performs zero
ledger appends instead of exactly one. (Other tasks and the run itself
do continue, which is the part of the claim that holds.) -/
theorem worker_exception_counterexample :
    (download_model badErrOracle 7 ⟨[], [], [], [], []⟩ false).2.2 =
      some .typeError ∧
    logLen (download_model badErrOracle 7 ⟨[], [], [], [], []⟩ false).1 = 0 := by
  constructor <;> rfl

/-- Amended C7: provided every dict body carries a containment-testable
`error` value (string, list or dict — the shapes the upstream actually
sends), no exception escapes a dispatched task and the task performs
exactly one ledger append, whatever the response (malformed bodies,
non-404/429 HTTP errors, timeouts, transport failures included); a
dict body whose `error` value is an int, float, bool or null instead
raises a `TypeError` that escapes the worker with zero appends. -/
theorem task_one_outcome_one_append (oracle : Nat → HttpResult) (id : Nat)
    (st : RunState) (force : Bool)
    (hsafe : ∀ k s kvs v, oracle k = .resp s (.jsonBody (.obj kvs)) →
      lookupKey ("error".data) kvs = some v → containerVal v = true)
    (hdisp : force = true ∨ st.dlSet.contains (pad8 id) = false) :
    (download_model oracle id st force).2.2 = none ∧
    logLen (download_model oracle id st force).1 = logLen st + 1 := by
  unfold download_model
  dsimp only
  have hskip : (!force && (fileAt st.fs (get_folder_name id) (storName id)).isSome
      && isValidAt st.fs (get_folder_name id) (storName id)
      && st.dlSet.contains (pad8 id)) = false := by
    rcases hdisp with h | h
    · rw [h]
      rfl
    · rw [h]
      simp
  rw [hskip]
  simp only [Bool.false_eq_true, if_false]
  obtain ⟨j, hj⟩ := fetchLoop_ok_of_safe oracle hsafe 3 0 []
  unfold fetch_civitai_json
  rw [hj]
  cases j with
  | str s =>
    by_cases h4 : (s == "404".data) = true
    · simp only [isStrEq, h4, if_true]
      exact ⟨trivial, by simp [logLen]; omega⟩
    · by_cases h9 : (s == "429".data) = true
      · simp only [isStrEq, h4, h9, Bool.false_eq_true, if_false, if_true]
        exact ⟨trivial, by simp [logLen]; omega⟩
      · simp only [isStrEq, h4, h9, Bool.false_eq_true, if_false]
        exact ⟨trivial, by simp [logLen]; omega⟩
  | obj kvs => exact ⟨rfl, by simp [logLen, isStrEq]; omega⟩
  | arr elems => exact ⟨rfl, by simp [logLen, isStrEq]; omega⟩
  | num n => exact ⟨rfl, by simp [logLen, isStrEq]; omega⟩
  | bool b => exact ⟨rfl, by simp [logLen, isStrEq]; omega⟩
  | null => exact ⟨rfl, by simp [logLen, isStrEq]; omega⟩

/-- Witness for C7's amended statement: a plain 404 task appends exactly
one line over the empty state. -/
theorem task_one_outcome_one_append_witness :
    logLen (download_model (fun _ => .resp 404 (.badBody [])) 3
      ⟨[], [], [], [], []⟩ false).1 = 1 := by
  have h := task_one_outcome_one_append (fun _ => .resp 404 (.badBody [])) 3
    ⟨[], [], [], [], []⟩ false
    (by intro k s kvs v hresp hl; simp at hresp) (Or.inr rfl)
  rw [h.2]
  rfl

theorem fetch_404_first (oracle : Nat → HttpResult) (body : Body)
    (h0 : oracle 0 = .resp 404 body) :
    fetch_civitai_json oracle = ⟨.ok (.str "404".data), 1, []⟩ := by
  simp only [fetch_civitai_json, fetchLoop, h0]
  rfl

/-- A task over a plain document (dict body, no `error` key) that does
not hit the skip path: it persists the document and appends the id to
the downloaded ledger and in-memory set. -/
theorem download_model_plain_eq (oracle : Nat → HttpResult) (id : Nat)
    (st : RunState) (kvs : List (List Char × Json))
    (h0 : oracle 0 = .resp 200 (.jsonBody (.obj kvs)))
    (hplain : lookupKey ("error".data) kvs = none)
    (hnoskip : (!false && (fileAt st.fs (get_folder_name id) (storName id)).isSome
      && isValidAt st.fs (get_folder_name id) (storName id)
      && st.dlSet.contains (pad8 id)) = false) :
    download_model oracle id st false =
      ({ st with
          fs := applyOps st.fs (writeSteps id (.obj kvs)),
          dl := st.dl ++ [pad8 id],
          dlSet := st.dlSet ++ [pad8 id] }, true, none) := by
  unfold download_model
  dsimp only
  rw [hnoskip]
  simp only [Bool.false_eq_true, if_false]
  rw [fetch_plain_doc oracle kvs h0 hplain]
  rfl

/-- A task whose upstream answers 404 and that does not hit the skip
path: it appends the id to the not-found ledger only. -/
theorem download_model_404_eq (oracle : Nat → HttpResult) (id : Nat)
    (st : RunState) (body : Body)
    (h0 : oracle 0 = .resp 404 body)
    (hnoskip : (!false && (fileAt st.fs (get_folder_name id) (storName id)).isSome
      && isValidAt st.fs (get_folder_name id) (storName id)
      && st.dlSet.contains (pad8 id)) = false) :
    download_model oracle id st false =
      ({ st with nf := st.nf ++ [pad8 id] }, true, none) := by
  unfold download_model
  dsimp only
  rw [hnoskip]
  simp only [Bool.false_eq_true, if_false]
  rw [fetch_404_first oracle body h0]
  rfl

/-- The C1 upstream: valid documents for ids 1 and 3, HTTP 404 for 2. -/
def c1Oracle (d1 d3 : Json) : Nat → Nat → HttpResult := fun id _ =>
  if id = 1 then .resp 200 (.jsonBody d1)
  else if id = 2 then .resp 404 (.badBody [])
  else .resp 200 (.jsonBody d3)

/-- Claim C1: over an empty output directory, a range run over [1, 3]
against an upstream returning valid documents (dicts without an `error`
key) for ids 1 and 3 and HTTP 404 for id 2 ends with exactly the files
`00000000/00000001.json` and `00000000/00000003.json` holding the two
documents, `downloaded.txt` = 00000001, 00000003, `notfound.txt` =
00000002, and `errors.txt` empty; all three ids were fetched. -/
theorem range_1_3_scenario (kvs1 kvs3 : List (List Char × Json))
    (h1 : lookupKey ("error".data) kvs1 = none)
    (h3 : lookupKey ("error".data) kvs3 = none) :
    mainRange (c1Oracle (.obj kvs1) (.obj kvs3)) 1 3 ⟨[], [], [], [], []⟩ =
      (⟨[⟨"00000000".data, "00000001.json".data, .valid (.obj kvs1)⟩,
         ⟨"00000000".data, "00000003.json".data, .valid (.obj kvs3)⟩],
        ["00000001".data, "00000003".data],
        ["00000002".data], [],
        ["00000001".data, "00000003".data]⟩, [1, 2, 3]) := by
  have hd1 : download_model (c1Oracle (.obj kvs1) (.obj kvs3) 1) 1
      ⟨[], [], [], [], []⟩ false =
      (⟨applyOps [] (writeSteps 1 (.obj kvs1)), [pad8 1], [], [], [pad8 1]⟩,
        true, none) :=
    (download_model_plain_eq (c1Oracle (.obj kvs1) (.obj kvs3) 1) 1
      ⟨[], [], [], [], []⟩ kvs1 rfl h1 rfl).trans rfl
  have hd2 : download_model (c1Oracle (.obj kvs1) (.obj kvs3) 2) 2
      ⟨applyOps [] (writeSteps 1 (.obj kvs1)), [pad8 1], [], [], [pad8 1]⟩ false =
      (⟨applyOps [] (writeSteps 1 (.obj kvs1)), [pad8 1], [pad8 2], [], [pad8 1]⟩,
        true, none) :=
    (download_model_404_eq (c1Oracle (.obj kvs1) (.obj kvs3) 2) 2
      ⟨applyOps [] (writeSteps 1 (.obj kvs1)), [pad8 1], [], [], [pad8 1]⟩
      (.badBody []) rfl rfl).trans rfl
  have hd3 : download_model (c1Oracle (.obj kvs1) (.obj kvs3) 3) 3
      ⟨applyOps [] (writeSteps 1 (.obj kvs1)), [pad8 1], [pad8 2], [], [pad8 1]⟩
      false =
      (⟨applyOps (applyOps [] (writeSteps 1 (.obj kvs1))) (writeSteps 3 (.obj kvs3)),
        [pad8 1, pad8 3], [pad8 2], [], [pad8 1, pad8 3]⟩, true, none) :=
    (download_model_plain_eq (c1Oracle (.obj kvs1) (.obj kvs3) 3) 3
      ⟨applyOps [] (writeSteps 1 (.obj kvs1)), [pad8 1], [pad8 2], [], [pad8 1]⟩
      kvs3 rfl h3 rfl).trans rfl
  have hreb : rebuildStep ⟨[], [], [], [], []⟩ = ⟨[], [], [], [], []⟩ := rfl
  have hcand : rangeCandidates 1 3 ([] : List (List Char)) = [1, 2, 3] := rfl
  unfold mainRange
  rw [hreb]
  dsimp only
  rw [hcand]
  unfold download_models_threaded runTasks
  simp only [List.foldl_cons, List.foldl_nil]
  dsimp only
  rw [hd1]
  dsimp only
  rw [hd2]
  dsimp only
  rw [hd3]
  dsimp only
  rfl

/-- Witness for C1 with two concrete documents. -/
theorem range_1_3_scenario_witness :
    mainRange (c1Oracle (.obj [("name".data, .str "a".data)]) (.obj [])) 1 3
      ⟨[], [], [], [], []⟩ =
      (⟨[⟨"00000000".data, "00000001.json".data,
            .valid (.obj [("name".data, .str "a".data)])⟩,
         ⟨"00000000".data, "00000003.json".data, .valid (.obj [])⟩],
        ["00000001".data, "00000003".data],
        ["00000002".data], [],
        ["00000001".data, "00000003".data]⟩, [1, 2, 3]) :=
  range_1_3_scenario [("name".data, .str "a".data)] [] rfl rfl

/-- The entry `download_model` itself writes for id `i`: bucket
directory and 8-width (or longer) name derived from the id. -/
def canonEntry (i : Nat) (d : FileData) : FEntry :=
  ⟨get_folder_name i, storName i, d⟩

/-- A store in which every file was written by the tool (no concurrent
external mutation) for ids below `10^8`: each entry is the canonical
entry of some such id. -/
def CanonFs (fs : List FEntry) : Prop :=
  ∀ e ∈ fs, ∃ i d, i < 10 ^ 8 ∧ e = canonEntry i d

/-- No two entries share a path — what a real directory tree guarantees. -/
def PathsNodup (fs : List FEntry) : Prop :=
  (fs.map (fun e => (e.dir, e.name))).Nodup

/-- One Reconciler pass over the state: rebuild `downloaded.txt` from
the files on disk (lines 71-77, 208-211). -/
def reconcile (st : RunState) : RunState :=
  { st with dl := rebuild_downloaded_log st.fs }

theorem mem_scan_iff_of_canon (fs : List FEntry) (hc : CanonFs fs) (id : Nat)
    (hid : id < 10 ^ 8) :
    pad8 id ∈ scan_existing_json fs ↔ ∃ j, canonEntry id (.valid j) ∈ fs := by
  unfold scan_existing_json
  rw [List.mem_filterMap]
  constructor
  · rintro ⟨e, he, hsome⟩
    obtain ⟨i, d, hi, rfl⟩ := hc e he
    cases d with
    | invalid => simp [canonEntry, scanNameOk_storName i] at hsome
    | valid j =>
      simp only [canonEntry, scanNameOk_storName i, if_true] at hsome
      rw [take8_storName i, take8_pad8_of_lt i hi] at hsome
      have hij : i = id := pad8_injOn i id (by injection hsome)
      subst hij
      exact ⟨j, he⟩
  · rintro ⟨j, hj⟩
    refine ⟨canonEntry id (.valid j), hj, ?_⟩
    simp only [canonEntry, scanNameOk_storName id, if_true]
    rw [take8_storName id, take8_pad8_of_lt id hid]

theorem fileAt_eq_iff_mem (fs : List FEntry) (hnd : PathsNodup fs)
    (dir name : List Char) (d : FileData) :
    fileAt fs dir name = some d ↔ (⟨dir, name, d⟩ : FEntry) ∈ fs := by
  induction fs with
  | nil => simp [fileAt]
  | cons e t ih =>
    have hnd' : PathsNodup t := by
      unfold PathsNodup at hnd ⊢
      rw [List.map_cons, List.nodup_cons] at hnd
      exact hnd.2
    by_cases hpe : (e.dir == dir && e.name == name) = true
    · have hpe' : e.dir = dir ∧ e.name = name := by
        rw [Bool.and_eq_true, beq_iff_eq, beq_iff_eq] at hpe
        exact hpe
      have hfind : List.find? (fun (x : FEntry) => x.dir == dir && x.name == name)
          (e :: t) = some e := List.find?_cons_of_pos _ hpe
      have hfa : fileAt (e :: t) dir name = some e.data := by
        unfold fileAt
        rw [hfind]
        rfl
      rw [hfa]
      constructor
      · intro hd
        have hdd : e.data = d := by injection hd
        have he2 : e = ⟨dir, name, d⟩ := by
          obtain ⟨ed, en, edata⟩ := e
          dsimp only at hdd
          obtain ⟨h1, h2⟩ := hpe'
          dsimp only at h1 h2
          rw [h1, h2, hdd]
        rw [← he2]
        exact List.mem_cons_self e t
      · intro hmem
        rcases List.mem_cons.mp hmem with hh | ht
        · rw [← hh]
        · exfalso
          unfold PathsNodup at hnd
          rw [List.map_cons, List.nodup_cons] at hnd
          apply hnd.1
          rw [List.mem_map]
          refine ⟨⟨dir, name, d⟩, ht, ?_⟩
          obtain ⟨h1, h2⟩ := hpe'
          rw [h1, h2]
    · have hfind : List.find? (fun (x : FEntry) => x.dir == dir && x.name == name)
          (e :: t) =
          List.find? (fun (x : FEntry) => x.dir == dir && x.name == name) t :=
        List.find?_cons_of_neg _ hpe
      have hfa : fileAt (e :: t) dir name = fileAt t dir name := by
        unfold fileAt
        rw [hfind]
      rw [hfa, ih hnd']
      constructor
      · exact fun h => List.mem_cons_of_mem e h
      · intro hmem
        rcases List.mem_cons.mp hmem with hh | ht
        · exfalso
          apply hpe
          rw [← hh]
          simp
        · exact ht

/-- Claim C5 is false of the code as stated for every id: with the
single (valid) file the tool writes for id `10^8`, the rebuilt
downloaded log holds the truncated string `10000000` — so id `10^8` has
a valid file at its StoragePath but is not in the effective downloaded
log, while id `10^7` is in the log with no file at its StoragePath at
all. Both directions of the equivalence fail after the Reconciler pass. -/
theorem reconcile_big_id_breaks_invariant :
    fileAt [canonEntry 100000000 (.valid .null)]
      (get_folder_name 100000000) (storName 100000000) =
      some (.valid .null) ∧
    pad8 100000000 ∉
      (reconcile ⟨[canonEntry 100000000 (.valid .null)], [], [], [], []⟩).dl ∧
    pad8 10000000 ∈
      (reconcile ⟨[canonEntry 100000000 (.valid .null)], [], [], [], []⟩).dl ∧
    fileAt [canonEntry 100000000 (.valid .null)]
      (get_folder_name 10000000) (storName 10000000) = none := by
  refine ⟨fileAt_self_singleton 100000000 (.valid .null), ?_, ?_, ?_⟩
  · decide
  · decide
  · rfl

/-- Amended C5: restricted to stores whose files were all written by
the tool for ids below `10^8` (the bit-exact layout of the spec, with
distinct paths), one Reconciler pass restores the invariant: an id
string is in the rebuilt deduplicated downloaded log exactly when a
valid JSON document sits at the id's StoragePath. For ids at or above
`10^8` the equivalence fails (scan truncates names to 8 characters). -/
theorem reconcile_invariant (st : RunState) (hc : CanonFs st.fs)
    (hnd : PathsNodup st.fs) (id : Nat) (hid : id < 10 ^ 8) :
    pad8 id ∈ (reconcile st).dl ↔
      ∃ j, fileAt st.fs (get_folder_name id) (storName id) = some (.valid j) := by
  unfold reconcile
  dsimp only
  rw [mem_rebuild, mem_scan_iff_of_canon st.fs hc id hid]
  constructor
  · rintro ⟨j, hj⟩
    exact ⟨j, (fileAt_eq_iff_mem st.fs hnd _ _ _).mpr hj⟩
  · rintro ⟨j, hj⟩
    exact ⟨j, (fileAt_eq_iff_mem st.fs hnd _ _ _).mp hj⟩

/-- Witness for C5's amended statement: a store holding one valid file
for id 7 reconciles to a log containing `00000007`. -/
theorem reconcile_invariant_witness :
    pad8 7 ∈ (reconcile ⟨[canonEntry 7 (.valid .null)], [], [], [], []⟩).dl :=
  (reconcile_invariant ⟨[canonEntry 7 (.valid .null)], [], [], [], []⟩
    (fun e he => ⟨7, .valid .null, by norm_num, List.mem_singleton.mp he⟩)
    (by simp [PathsNodup]) 7 (by norm_num)).mpr
    ⟨.null, fileAt_self_singleton 7 (.valid .null)⟩

theorem crawlLoop_all404 (fr : Nat → Except PyExc Json) :
    ∀ (k h count : Nat) (acc : List Nat) (fuel : Nat),
      count + k = 200 → k + 1 ≤ fuel →
      (∀ i, h < i → i ≤ h + k → fr i = .ok (.str "404".data)) →
      crawlLoop fr fuel h count acc = .ok (some (acc, h + k)) := by
  intro k
  induction k with
  | zero =>
    intro h count acc fuel hcount hfuel hfr
    match fuel, hfuel with
    | f + 1, _ =>
      unfold crawlLoop
      rw [if_pos (by omega : 200 ≤ count)]
      simp
  | succ k ih =>
    intro h count acc fuel hcount hfuel hfr
    match fuel, hfuel with
    | f + 1, hf =>
      unfold crawlLoop
      rw [if_neg (by omega : ¬ 200 ≤ count)]
      rw [hfr (h + 1) (by omega) (by omega)]
      show crawlLoop fr f (h + 1) (count + 1) acc = .ok (some (acc, h + (k + 1)))
      have := ih (h + 1) (count + 1) acc f (by omega) (by omega)
        (fun i hi1 hi2 => hfr i (by omega) (by omega))
      rw [show h + 1 + k = h + (k + 1) from by omega] at this
      exact this

theorem crawlLoop_dict_segment (fr : Nat → Except PyExc Json) :
    ∀ (d h count : Nat) (acc : List Nat) (fuel : Nat),
      (∀ i, h < i → i ≤ h + d → ∃ kvs, fr i = .ok (.obj kvs)) →
      count < 200 →
      crawlLoop fr (d + fuel) h count acc =
        crawlLoop fr fuel (h + d) (if d = 0 then count else 0)
          (acc ++ List.range' (h + 1) d) := by
  intro d
  induction d with
  | zero =>
    intro h count acc fuel hdict hcount
    simp
  | succ k ih =>
    intro h count acc fuel hdict hcount
    rw [show k + 1 + fuel = (k + fuel) + 1 from by omega]
    obtain ⟨kvs, hkvs⟩ := hdict (h + 1) (by omega) (by omega)
    have hstep : crawlLoop fr ((k + fuel) + 1) h count acc =
        crawlLoop fr (k + fuel) (h + 1) 0 (acc ++ [h + 1]) := by
      conv_lhs => unfold crawlLoop
      rw [if_neg (by omega : ¬ 200 ≤ count), hkvs]
      rfl
    rw [hstep]
    rw [ih (h + 1) 0 (acc ++ [h + 1]) fuel
      (fun i hi1 hi2 => hdict i (by omega) (by omega)) (by omega)]
    rw [show h + 1 + k = h + (k + 1) from by omega]
    rw [show (if k = 0 then 0 else 0) = (if k + 1 = 0 then count else 0) from by
      split <;> split <;> omega]
    rw [List.append_assoc, show [h + 1] ++ List.range' (h + 1 + 1) k =
      List.range' (h + 1) (k + 1) from by rw [List.range'_succ]; rfl]

/-- Claim C9: frontier crawl over an upstream that delivers documents
for every id in (start, p) and `NotFound` from id `p` onward: with
sufficient fuel the sequential probe loop terminates, its final
`highest` is exactly `p + 199` (the id at which the 200th consecutive
404 since the last document was observed), its discovery list — the
ids appended to `crawled.txt` and scheduled for the download phase —
is exactly the document ids (start, p), and contains nothing at or
beyond the 404 frontier `p`. -/
theorem frontier_crawl_termination (fr : Nat → Except PyExc Json) (start p : Nat)
    (hsp : start < p)
    (hdict : ∀ i, start < i → i < p → ∃ kvs, fr i = .ok (.obj kvs))
    (h404 : ∀ i, p ≤ i → fr i = .ok (.str "404".data)) :
    crawlFrom fr (p + 200 - start) start =
      .ok (some (List.range' (start + 1) (p - 1 - start), p + 199)) ∧
    ∀ i ∈ List.range' (start + 1) (p - 1 - start), i < p := by
  constructor
  · unfold crawlFrom
    rw [show p + 200 - start = (p - 1 - start) + 201 from by omega]
    rw [crawlLoop_dict_segment fr (p - 1 - start) start 0 [] 201
      (fun i hi1 hi2 => hdict i hi1 (by omega)) (by omega)]
    have htail := crawlLoop_all404 fr 200 (start + (p - 1 - start))
      (if p - 1 - start = 0 then 0 else 0)
      ([] ++ List.range' (start + 1) (p - 1 - start)) 201
      (by split <;> omega) (by omega)
      (fun i hi1 hi2 => h404 i (by omega))
    rw [htail]
    rw [show start + (p - 1 - start) + 200 = p + 199 from by omega]
    rw [List.nil_append]
  · intro i hi
    rw [List.mem_range'_1] at hi
    omega

/-- The C9 witness upstream: a document at every id up to 11, 404 from
id 12 onward. -/
def c9Oracle : Nat → Except PyExc Json := fun i =>
  if i ≤ 11 then .ok (.obj []) else .ok (.str "404".data)

/-- Witness for C9: crawling from 10 discovers exactly id 11 and stops
with `highest = 211`, after the 200 consecutive 404s at 12..211. -/
theorem frontier_crawl_termination_witness :
    crawlFrom c9Oracle 202 10 = .ok (some ([11], 211)) := by
  have h := (frontier_crawl_termination c9Oracle 10 12 (by norm_num)
    (fun i hi1 hi2 => ⟨[], by unfold c9Oracle; rw [if_pos (by omega)]⟩)
    (fun i hi => by unfold c9Oracle; rw [if_neg (by omega)])).1
  rw [show (12 + 200 - 10 : Nat) = 202 from by norm_num] at h
  rw [show (12 - 1 - 10 : Nat) = 1 from by norm_num] at h
  rw [List.range'_one] at h
  exact h
